import Mathlib

/-!
Verification development for the SystemUtils library.

This file gives a shallow embedding, in Lean, of the parts of the library
that the specification's claims are about:

* `DataQueue` (src/src/DataQueue.cpp): the segmented byte queue, embedded as
  a list of `(data, consumed)` elements plus the cached `totalBytes` counter,
  with `DequeueImpl` translating the C++ `Impl::Dequeue(numBytes, returnData,
  removeData)` loop.
* `NetworkConnection` (src/src/Win32/NetworkConnectionWin32.cpp and
  src/src/NetworkConnection.cpp): the connection state (socket liveness,
  `peerClosed` / `closing` / `shutdownSent` / `processorStop` flags, output
  queue, whether the broken delegate is installed), the `Impl::Close`
  procedure, the public `Close`, and one iteration of the worker
  (`Impl::Processor`) parameterised by the outcomes of the `recv` and `send`
  system calls.
* `NetworkEndPoint` (src/src/Win32/NetworkEndPointWin32.cpp): the `Open`
  algorithm parameterised by the outcomes of the system calls it makes, and
  the receive half of one worker iteration in Datagram / MulticastReceive
  mode, parameterised by the outcome of `recvfrom`.
* `DiagnosticsStreamReporter` (src/src/DiagnosticsStreamReporter.cpp): the
  sink-selection and line-formatting logic; the `%.6lf` rendering of the
  elapsed-seconds double is abstracted as an opaque pre-formatted string
  argument, since floating-point formatting is outside the embedding.

Delegate invocations (message-received, broken, packet-received) are modelled
as emitted events, and blocking system calls as oracle arguments giving the
outcome of each call, so that the worker-loop bodies become pure functions of
the state and the outcomes.
-/

namespace SystemUtils

/-! ## DataQueue (src/src/DataQueue.cpp) -/

/-- One sequential piece of data held in a `DataQueue`: the buffer bytes and
the number of bytes already consumed from it (C++ `struct Element`). -/
structure Element where
  data : List Nat
  consumed : Nat
deriving Repr, DecidableEq

/-- The state of a `DataQueue`: the deque of elements and the cached total
byte counter (C++ `DataQueue::Impl`). -/
structure DataQueue where
  elements : List Element
  totalBytes : Nat
deriving Repr, DecidableEq

/-- The number of not-yet-consumed bytes in one element. -/
def Element.remaining (e : Element) : Nat :=
  e.data.length - e.consumed

/-- The literal sum of remaining bytes across a list of elements. -/
def sumRemaining (els : List Element) : Nat :=
  (els.map Element.remaining).sum

/-- The loop of `DataQueue::Impl::Dequeue` (DataQueue.cpp lines 79-125),
translated with an explicit fuel so the recursion is structural.  The loop
state is `(numBytesLeftFromQueue, elements-from-the-cursor, buffer,
totalBytes)`; the elements before the cursor that a peek walks past are
re-attached by the third match arm of the peek branch.  The C++ loop would
dereference a past-the-end iterator if the element list ran out while bytes
were still requested; that situation is unreachable when `totalBytes` is the
true byte count, and the model returns the state unchanged there.  The fuel-0
arm is likewise never reached when the fuel exceeds
`numBytesLeft + elements.length`, since every recursive call strictly
decreases that measure. -/
def dequeueLoopFuel (returnData removeData : Bool) :
    Nat → Nat → List Element → List Nat → Nat → List Nat × List Element × Nat
  | 0, _, els, buf, tb => (buf, els, tb)
  | _ + 1, 0, els, buf, tb => (buf, els, tb)
  | _ + 1, _ + 1, [], buf, tb => (buf, [], tb)
  | fuel + 1, n + 1, e :: rest, buf, tb =>
    if e.consumed = 0 ∧ e.data.length = n + 1 ∧ buf = [] then
      -- whole-segment fast path
      let buf2 := if returnData then e.data else buf
      if removeData then (buf2, rest, tb - (n + 1)) else (buf2, e :: rest, tb)
    else
      -- byte-copy path
      let c := min (n + 1) (e.data.length - e.consumed)
      let buf2 := if returnData then buf ++ (e.data.drop e.consumed).take c else buf
      if removeData then
        if e.data.length ≤ e.consumed + c then
          dequeueLoopFuel returnData removeData fuel (n + 1 - c) rest buf2 (tb - c)
        else
          dequeueLoopFuel returnData removeData fuel (n + 1 - c)
            (⟨e.data, e.consumed + c⟩ :: rest) buf2 (tb - c)
      else
        if e.data.length ≤ e.consumed + c then
          let r := dequeueLoopFuel returnData removeData fuel (n + 1 - c) rest buf2 tb
          (r.1, e :: r.2.1, r.2.2)
        else
          dequeueLoopFuel returnData removeData fuel (n + 1 - c) (e :: rest) buf2 tb

/-- Method `DataQueue::Impl::Dequeue(numBytes, returnData, removeData)`: clamp the
request to the queue total, run the loop, and return the produced buffer and
the new queue state. -/
def DataQueue.DequeueImpl (q : DataQueue) (numBytes : Nat)
    (returnData removeData : Bool) : List Nat × DataQueue :=
  let left := min numBytes q.totalBytes
  let r := dequeueLoopFuel returnData removeData
    (left + q.elements.length + 1) left q.elements [] q.totalBytes
  (r.1, ⟨r.2.1, r.2.2⟩)

/-- Method `DataQueue::Enqueue`: add the bytes to the total and push a fresh element
(consumed = 0) at the back.  The copy and move overloads have the same
observable behaviour. -/
def DataQueue.Enqueue (q : DataQueue) (data : List Nat) : DataQueue :=
  ⟨q.elements ++ [⟨data, 0⟩], q.totalBytes + data.length⟩

/-- Method `DataQueue::Dequeue(numBytes)` = `Impl::Dequeue(numBytes, true, true)`. -/
def DataQueue.Dequeue (q : DataQueue) (numBytes : Nat) : List Nat × DataQueue :=
  q.DequeueImpl numBytes true true

/-- Method `DataQueue::Peek(numBytes)` = `Impl::Dequeue(numBytes, true, false)`. -/
def DataQueue.Peek (q : DataQueue) (numBytes : Nat) : List Nat × DataQueue :=
  q.DequeueImpl numBytes true false

/-- Method `DataQueue::Drop(numBytes)` = `Impl::Dequeue(numBytes, false, true)`,
discarding the (empty) returned buffer. -/
def DataQueue.Drop (q : DataQueue) (numBytes : Nat) : DataQueue :=
  (q.DequeueImpl numBytes false true).2

/-- Method `DataQueue::GetBuffersQueued`: the number of elements. -/
def DataQueue.GetBuffersQueued (q : DataQueue) : Nat :=
  q.elements.length

/-- Method `DataQueue::GetBytesQueued`: the cached total byte counter. -/
def DataQueue.GetBytesQueued (q : DataQueue) : Nat :=
  q.totalBytes

/-- A freshly constructed `DataQueue`. -/
def DataQueue.empty : DataQueue :=
  ⟨[], 0⟩

/-- One public operation on a `DataQueue`, for describing reachable states. -/
inductive QueueOp where
  | enqueue (data : List Nat)
  | dequeue (numBytes : Nat)
  | peek (numBytes : Nat)
  | drop (numBytes : Nat)
deriving Repr, DecidableEq

/-- Apply one operation to a queue, keeping only the queue state. -/
def applyOp (q : DataQueue) : QueueOp → DataQueue
  | .enqueue data => q.Enqueue data
  | .dequeue numBytes => (q.Dequeue numBytes).2
  | .peek numBytes => (q.Peek numBytes).2
  | .drop numBytes => q.Drop numBytes

/-- The queue state after a sequence of operations on a fresh queue. -/
def runOps (ops : List QueueOp) : DataQueue :=
  ops.foldl applyOp DataQueue.empty

/-- Well-formedness of a queue state: the cached counter is the literal sum
of remaining bytes, and no element has consumed more than its length.  Every
reachable state satisfies this (`wf_runOps`). -/
def DataQueue.Wf (q : DataQueue) : Prop :=
  q.totalBytes = sumRemaining q.elements
    ∧ ∀ e ∈ q.elements, e.consumed ≤ e.data.length

/-- Every stored segment still has at least one remaining byte.  This holds
for all states reachable without enqueuing an empty buffer
(`noEmptySegments_runOps`), and fails for states with an empty enqueue. -/
def DataQueue.NoEmptySegments (q : DataQueue) : Prop :=
  ∀ e ∈ q.elements, e.consumed < e.data.length

/-! ## NetworkConnection (src/src/Win32/NetworkConnectionWin32.cpp,
src/src/NetworkConnection.cpp)

The mutable connection state is embedded as `ConnState`; the socket handle is
abstracted to its only observable property (`socket != INVALID_SOCKET`), and
the delegates to whether they are installed (non-null).  Delegate invocations
become `ConnEvent`s; the `recv` / `send` calls become oracle arguments. -/

/-- The `CloseProcedure` enumeration of `NetworkConnection::Impl`. -/
inductive CloseProcedure where
  | immediateAndStopProcessor
  | immediateDoNotStopProcessor
  | graceful
deriving Repr, DecidableEq

/-- The observable `NetworkConnection` state: socket liveness, the platform
flags, whether the worker thread is joinable, whether the broken delegate is
installed (`Process` sets it; default-constructed it is null), the outbound
`DataQueue`, and the worker's local `wait` flag. -/
structure ConnState where
  socketOpen : Bool
  peerClosed : Bool
  closing : Bool
  shutdownSent : Bool
  processorStop : Bool
  processorJoinable : Bool
  brokenInstalled : Bool
  outputQueue : DataQueue
  wait : Bool
deriving Repr, DecidableEq

/-- A user-delegate invocation or socket shutdown performed by the
connection code. -/
inductive ConnEvent where
  | messageReceived (data : List Nat)
  | broken (graceful : Bool)
  | shutdownSend
deriving Repr, DecidableEq

/-- Outcome of one `recv` call: `SOCKET_ERROR` with `WSAEWOULDBLOCK`, any
other `SOCKET_ERROR`, or a byte count (`ok []` is the `recv() == 0` orderly
peer close). -/
inductive RecvOutcome where
  | wouldBlock
  | hardError
  | ok (data : List Nat)
deriving Repr, DecidableEq

/-- Outcome of one `send` call: `SOCKET_ERROR` with `WSAEWOULDBLOCK`, any
other `SOCKET_ERROR`, or a byte count (`sent 0` is the `send() == 0`
result). -/
inductive SendOutcome where
  | wouldBlock
  | hardError
  | sent (n : Nat)
deriving Repr, DecidableEq

/-- Method `NetworkConnection::Impl::Close(procedure)` (NetworkConnectionWin32.cpp
lines 307-331).  The comparison of the calling thread with the worker thread
is modelled by the Boolean `fromWorker`.  Returns the new state and the C++
return value, which reports whether a non-null broken delegate is installed
after an immediate close of a live socket. -/
def ImplClose (st : ConnState) (procedure : CloseProcedure) (fromWorker : Bool) :
    ConnState × Bool :=
  let st :=
    if procedure = CloseProcedure.immediateAndStopProcessor ∧ ¬fromWorker
       ∧ st.processorJoinable
    then { st with processorStop := true }
    else st
  if st.socketOpen then
    if procedure = CloseProcedure.graceful then
      ({ st with closing := true }, false)
    else
      ({ st with socketOpen := false }, st.brokenInstalled)
  else
    (st, false)

/-- The public `NetworkConnection::Close(clean)` (NetworkConnection.cpp lines
51-55): run `Impl::Close` with `Graceful` or `ImmediateAndStopProcessor`, and
invoke the broken delegate with `graceful=false` when it reports true.  The
caller is an application thread, so `fromWorker = false`. -/
def NetworkConnectionClose (st : ConnState) (clean : Bool) :
    ConnState × List ConnEvent :=
  let r := ImplClose st
    (if clean then CloseProcedure.graceful
     else CloseProcedure.immediateAndStopProcessor) false
  (r.1, if r.2 then [ConnEvent.broken false] else [])

/-- The read phase of one `Impl::Processor` iteration
(NetworkConnectionWin32.cpp lines 174-219): skip the read when the peer
already closed, otherwise dispatch on the `recv` outcome.  The third
component reports whether the C++ `break` was executed. -/
def ProcessorRecvPhase (st : ConnState) (recvRes : RecvOutcome) :
    ConnState × List ConnEvent × Bool :=
  if st.peerClosed then
    ({ st with wait := true }, [], false)
  else
    match recvRes with
    | .wouldBlock => ({ st with wait := true }, [], false)
    | .hardError =>
      let r := ImplClose st CloseProcedure.immediateDoNotStopProcessor true
      (r.1, if r.2 then [ConnEvent.broken false] else [], true)
    | .ok data =>
      if data.length > 0 then
        ({ st with wait := false }, [ConnEvent.messageReceived data], false)
      else
        ({ st with peerClosed := true }, [ConnEvent.broken true], false)

/-- The write phase of one `Impl::Processor` iteration
(NetworkConnectionWin32.cpp lines 222-269): when the outbound queue is
non-empty, peek `min(queued, 65536)` bytes and dispatch on the `send`
outcome.  The third component reports whether the C++ `break` was
executed. -/
def ProcessorSendPhase (st : ConnState) (sendRes : SendOutcome) :
    ConnState × List ConnEvent × Bool :=
  let outputQueueLength := st.outputQueue.GetBytesQueued
  if outputQueueLength > 0 then
    let writeSize := min outputQueueLength 65536
    let st := { st with outputQueue := (st.outputQueue.Peek writeSize).2 }
    match sendRes with
    | .wouldBlock =>
      let r := ImplClose st CloseProcedure.immediateDoNotStopProcessor true
      (r.1, if r.2 then [ConnEvent.broken false] else [], true)
    | .hardError => (st, [], false)
    | .sent n =>
      if n > 0 then
        let q := st.outputQueue.Drop n
        if n = writeSize ∧ q.GetBytesQueued > 0 then
          ({ st with outputQueue := q, wait := false }, [], false)
        else
          ({ st with outputQueue := q }, [], false)
      else
        let r := ImplClose st CloseProcedure.immediateDoNotStopProcessor true
        (r.1, if r.2 then [ConnEvent.broken false] else [], true)
  else
    (st, [], false)

/-- The drain-and-close phase of one `Impl::Processor` iteration
(NetworkConnectionWin32.cpp lines 270-291): when the queue is empty and
`closing` is set, half-close the send side once, and once the peer has also
closed, close the socket immediately and invoke the broken delegate (with
`graceful=false`) if one is installed. -/
def ProcessorClosingPhase (st : ConnState) : ConnState × List ConnEvent :=
  if st.outputQueue.GetBytesQueued = 0 ∧ st.closing then
    let p :=
      if ¬st.shutdownSent then
        ({ st with shutdownSent := true }, [ConnEvent.shutdownSend])
      else
        (st, ([] : List ConnEvent))
    let st := p.1
    if st.peerClosed then
      let st := { st with socketOpen := false }
      if st.brokenInstalled then
        (st, p.2 ++ [ConnEvent.broken false])
      else
        (st, p.2)
    else
      (st, p.2)
  else
    (st, [])

/-- One full iteration of the `Impl::Processor` loop body
(NetworkConnectionWin32.cpp lines 166-291): the read phase, the
mid-iteration `break` when the socket died, the write phase, and the
drain-and-close phase.  Returns the new state, the events emitted in order,
and whether the loop was broken out of. -/
def ProcessorIteration (st : ConnState) (recvRes : RecvOutcome)
    (sendRes : SendOutcome) : ConnState × List ConnEvent × Bool :=
  let r1 := ProcessorRecvPhase st recvRes
  if r1.2.2 then
    (r1.1, r1.2.1, true)
  else if ¬r1.1.socketOpen then
    (r1.1, r1.2.1, true)
  else
    let r2 := ProcessorSendPhase r1.1 sendRes
    if r2.2.2 then
      (r2.1, r1.2.1 ++ r2.2.1, true)
    else
      let r3 := ProcessorClosingPhase r2.1
      (r3.1, r1.2.1 ++ r2.2.1 ++ r3.2, false)

/-! ## NetworkEndPoint (src/src/Win32/NetworkEndPointWin32.cpp) -/

/-- The `NetworkEndPoint::Mode` enumeration. -/
inductive EndPointMode where
  | datagram
  | connection
  | multicastSend
  | multicastReceive
deriving Repr, DecidableEq

/-- One queued outbound datagram (C++ `Platform::Packet`). -/
structure Packet where
  address : Nat
  port : Nat
  body : List Nat
deriving Repr, DecidableEq

/-- The observable `NetworkEndPoint` state. -/
structure EndPointState where
  socketOpen : Bool
  port : Nat
  processorRunning : Bool
  outputQueue : List Packet
  wait : Bool
deriving Repr, DecidableEq

/-- The outcomes of the system calls `NetworkEndPoint::Impl::Open` makes, in
source order (NetworkEndPointWin32.cpp lines 72-231).  `boundPort` is the
port `getsockname` reads back after an ephemeral bind. -/
structure OpenEnv where
  socketOk : Bool
  multicastIfOk : Bool
  reuseAddrOk : Bool
  bindOk : Bool
  addMembershipOk : Bool
  getsocknameOk : Bool
  boundPort : Nat
  stateChangeEventOk : Bool
  socketEventOk : Bool
  eventSelectOk : Bool
  listenOk : Bool
deriving Repr, DecidableEq

/-- An `EndPointState` with the socket closed and no worker running, as left
behind by `Impl::Close` on a fresh or failed endpoint. -/
def closedEndPoint (port : Nat) : EndPointState :=
  { socketOpen := false, port := port, processorRunning := false
  , outputQueue := [], wait := true }

/-- Method `NetworkEndPoint::Impl::Open` (NetworkEndPointWin32.cpp lines 72-231),
with each system call's outcome taken from `env`.  Note the MulticastSend
branch (lines 87-101): after attempting to set `IP_MULTICAST_IF` (and
publishing a diagnostic if that fails), it unconditionally calls
`Close(false)` and returns false, whether or not the option was set
successfully. -/
def EndPointOpen (mode : EndPointMode) (port0 : Nat) (env : OpenEnv) :
    Bool × EndPointState :=
  if ¬env.socketOk then
    (false, closedEndPoint port0)
  else if mode = EndPointMode.multicastSend then
    -- on setsockopt failure an ERROR diagnostic is published; either way the
    -- branch falls through to Close(false) and returns false
    (false, closedEndPoint port0)
  else
    if mode = EndPointMode.multicastReceive ∧ ¬env.reuseAddrOk then
      (false, closedEndPoint port0)
    else if ¬env.bindOk then
      (false, closedEndPoint port0)
    else if mode = EndPointMode.multicastReceive ∧ ¬env.addMembershipOk then
      (false, closedEndPoint port0)
    else
      let afterName :=
        if mode = EndPointMode.multicastReceive then
          some port0
        else if env.getsocknameOk then
          some env.boundPort
        else
          none
      match afterName with
      | none => (false, closedEndPoint port0)
      | some port1 =>
        if ¬env.stateChangeEventOk then
          (false, closedEndPoint port1)
        else if ¬env.socketEventOk then
          (false, closedEndPoint port1)
        else if ¬env.eventSelectOk then
          (false, closedEndPoint port1)
        else if mode = EndPointMode.connection ∧ ¬env.listenOk then
          (false, closedEndPoint port1)
        else
          (true,
           { socketOpen := true, port := port1, processorRunning := true
           , outputQueue := [], wait := true })

/-- A delegate invocation performed by the endpoint worker. -/
inductive EndPointEvent where
  | newConnection
  | packetReceived (address : Nat) (port : Nat) (body : List Nat)
deriving Repr, DecidableEq

/-- Outcome of one `recvfrom` call: `SOCKET_ERROR` with `WSAEWOULDBLOCK`,
any other `SOCKET_ERROR`, or a sender address/port and received bytes
(`ok a p []` is the `recvfrom() == 0` zero-length datagram). -/
inductive RecvFromOutcome where
  | wouldBlock
  | hardError
  | ok (address : Nat) (port : Nat) (data : List Nat)
deriving Repr, DecidableEq

/-- The receive step of one `Impl::Processor` iteration in Datagram or
MulticastReceive mode (NetworkEndPointWin32.cpp lines 285-308): a hard
`recvfrom` error publishes ERROR, calls `Close(false)` (closing the socket
without clearing the queue) and breaks; would-block does nothing; a positive
byte count invokes the packet-received delegate; a zero byte count does
nothing.  The third component reports whether the C++ `break` was
executed. -/
def EndPointRecvPhase (st : EndPointState) (recvRes : RecvFromOutcome) :
    EndPointState × List EndPointEvent × Bool :=
  match recvRes with
  | .wouldBlock => (st, [], false)
  | .hardError => ({ st with socketOpen := false }, [], true)
  | .ok address port data =>
    if data.length > 0 then
      (st, [EndPointEvent.packetReceived address port data], false)
    else
      (st, [], false)

/-- Outcome of one `sendto` call. -/
inductive SendToOutcome where
  | wouldBlock
  | hardError
  | sent (n : Nat)
deriving Repr, DecidableEq

/-- The send step of one `Impl::Processor` iteration
(NetworkEndPointWin32.cpp lines 309-342): with a non-empty outbound queue,
`sendto` the front packet; a hard error closes the endpoint and breaks;
would-block leaves the packet queued; otherwise the packet is popped (a
truncated send only publishes ERROR) and `wait` is cleared when more packets
remain. -/
def EndPointSendPhase (st : EndPointState) (sendRes : SendToOutcome) :
    EndPointState × Bool :=
  match st.outputQueue with
  | [] => (st, false)
  | _ :: rest =>
    match sendRes with
    | .wouldBlock => (st, false)
    | .hardError => ({ st with socketOpen := false }, true)
    | .sent _ =>
      if rest.isEmpty then
        ({ st with outputQueue := rest }, false)
      else
        ({ st with outputQueue := rest, wait := false }, false)

/-- One full iteration of the endpoint worker loop body in Datagram or
MulticastReceive mode (NetworkEndPointWin32.cpp lines 238-343): `wait` is
set at the top of each iteration, then the receive step runs, then (unless
it broke) the send step. -/
def EndPointIteration (st : EndPointState) (recvRes : RecvFromOutcome)
    (sendRes : SendToOutcome) : EndPointState × List EndPointEvent × Bool :=
  let st := { st with wait := true }
  let r1 := EndPointRecvPhase st recvRes
  if r1.2.2 then
    (r1.1, r1.2.1, true)
  else
    let r2 := EndPointSendPhase r1.1 sendRes
    (r2.1, r1.2.1, r2.2)

/-! ## DiagnosticsStreamReporter (src/src/DiagnosticsStreamReporter.cpp) -/

/-- Which of the two `FILE*` sinks a line is written to. -/
inductive Sink where
  | outputSink
  | errorSink
deriving Repr, DecidableEq

/-- The delegate built by `DiagnosticsStreamReporter(output, error)`
(DiagnosticsStreamReporter.cpp lines 15-39): pick the destination sink and
prefix from the level (`Levels::ERROR = 10`, `Levels::WARNING = 5`), then
print `"[%.6lf %s:%zu] %s%s\n"` with the elapsed seconds, sender name,
level, prefix and message.  The `%.6lf` rendering of the elapsed-seconds
double is abstracted as the pre-formatted string `elapsed`. -/
def DiagnosticsStreamReporter (elapsed senderName : String) (level : Nat)
    (message : String) : Sink × String :=
  let dp :=
    if level ≥ 10 then (Sink.errorSink, "error: ")
    else if level ≥ 5 then (Sink.errorSink, "warning: ")
    else (Sink.outputSink, "")
  (dp.1,
   "[" ++ elapsed ++ " " ++ senderName ++ ":" ++ toString level ++ "] "
     ++ dp.2 ++ message ++ "\n")

/-! ## Concrete states used to evaluate the code on specific scenarios -/

/-- A processing connection mid-way through a graceful close: `Close(true)`
has set `closing`, the outbound queue has drained, the worker has already
half-closed the send side (`shutdownSent`), and the broken delegate is
installed.  The next `recv` is about to observe the peer's orderly close. -/
def gracefulCloseDrainedState : ConnState :=
  { socketOpen := true, peerClosed := false, closing := true
  , shutdownSent := true, processorStop := false, processorJoinable := true
  , brokenInstalled := true, outputQueue := DataQueue.empty, wait := true }

/-- A processing connection whose peer has already closed its side
(`peerClosed`, so the worker skips the read) and whose outbound queue holds
one byte, about to attempt a send. -/
def sendPendingState : ConnState :=
  { socketOpen := true, peerClosed := true, closing := false
  , shutdownSent := false, processorStop := false, processorJoinable := true
  , brokenInstalled := true, outputQueue := DataQueue.empty.Enqueue [42]
  , wait := true }

/-- A processing connection with three unsent bytes queued via
`SendMessage`. -/
def queuedBytesState : ConnState :=
  { socketOpen := true, peerClosed := false, closing := false
  , shutdownSent := false, processorStop := false, processorJoinable := true
  , brokenInstalled := true, outputQueue := DataQueue.empty.Enqueue [1, 2, 3]
  , wait := true }

/-- A connection that was connected but on which `Process` was never called:
no worker thread, and the broken delegate is still null. -/
def neverProcessedState : ConnState :=
  { socketOpen := true, peerClosed := false, closing := false
  , shutdownSent := false, processorStop := false, processorJoinable := false
  , brokenInstalled := false, outputQueue := DataQueue.empty, wait := true }

/-- An `OpenEnv` in which every system call succeeds. -/
def allCallsSucceedEnv : OpenEnv :=
  { socketOk := true, multicastIfOk := true, reuseAddrOk := true
  , bindOk := true, addMembershipOk := true, getsocknameOk := true
  , boundPort := 5000, stateChangeEventOk := true, socketEventOk := true
  , eventSelectOk := true, listenOk := true }

/-- An endpoint open in Datagram mode with an empty outbound queue. -/
def openDatagramState : EndPointState :=
  { socketOpen := true, port := 8080, processorRunning := true
  , outputQueue := [], wait := true }

end SystemUtils
namespace SystemUtils

theorem sumRemaining_nil : sumRemaining [] = 0 := rfl

theorem sumRemaining_cons (e : Element) (els : List Element) :
    sumRemaining (e :: els) = (e.data.length - e.consumed) + sumRemaining els := by
  simp [sumRemaining, Element.remaining]

theorem dequeueLoopFuel_peek_state (rd : Bool) :
    ∀ (fuel left : Nat) (els : List Element) (buf : List Nat) (tb : Nat),
      (dequeueLoopFuel rd false fuel left els buf tb).2 = (els, tb) := by
  intro fuel
  induction fuel with
  | zero => intro left els buf tb; rfl
  | succ fuel ih =>
    intro left els buf tb
    cases left with
    | zero => rfl
    | succ n =>
      cases els with
      | nil => rfl
      | cons e rest =>
        simp only [dequeueLoopFuel]
        repeat' split
        all_goals simp_all [ih]

end SystemUtils

namespace SystemUtils

theorem dequeueLoopFuel_remove_spec (rd : Bool) :
    ∀ (fuel left : Nat) (els : List Element) (buf : List Nat) (tb : Nat),
      left + els.length < fuel →
      (∀ e ∈ els, e.consumed ≤ e.data.length) →
      left ≤ sumRemaining els →
      sumRemaining (dequeueLoopFuel rd true fuel left els buf tb).2.1
          = sumRemaining els - left
      ∧ (dequeueLoopFuel rd true fuel left els buf tb).2.2 = tb - left
      ∧ (∀ e ∈ (dequeueLoopFuel rd true fuel left els buf tb).2.1,
            e.consumed ≤ e.data.length)
      ∧ ((∀ e ∈ els, e.consumed < e.data.length) →
            ∀ e ∈ (dequeueLoopFuel rd true fuel left els buf tb).2.1,
              e.consumed < e.data.length) := by
  intro fuel
  induction fuel with
  | zero => intro left els buf tb hf _ _; omega
  | succ fuel ih =>
    intro left els buf tb hf hwf hle
    cases left with
    | zero =>
      exact ⟨by simp [dequeueLoopFuel], by simp [dequeueLoopFuel],
        by simpa [dequeueLoopFuel] using hwf,
        fun hne => by simpa [dequeueLoopFuel] using hne⟩
    | succ n =>
      cases els with
      | nil => simp [sumRemaining_nil] at hle
      | cons e rest =>
        have he : e.consumed ≤ e.data.length := hwf e (List.mem_cons_self e rest)
        have hwfr : ∀ x ∈ rest, x.consumed ≤ x.data.length :=
          fun x hx => hwf x (List.mem_cons_of_mem e hx)
        have hflen : n + 1 + rest.length < fuel := by
          simp only [List.length_cons] at hf; omega
        rw [sumRemaining_cons] at hle
        simp only [dequeueLoopFuel, eq_self_iff_true, if_true]
        by_cases hfast : e.consumed = 0 ∧ e.data.length = n + 1 ∧ buf = []
        · simp only [if_pos hfast]
          obtain ⟨h0, hl, -⟩ := hfast
          refine ⟨?_, ?_, ?_, ?_⟩
          · simp [sumRemaining_cons]; omega
          · simp
          · simpa using hwfr
          · intro hne; simpa using fun x hx => hne x (List.mem_cons_of_mem e hx)
        · simp only [if_neg hfast]
          by_cases herase :
              e.data.length ≤ e.consumed + min (n + 1) (e.data.length - e.consumed)
          · simp only [if_pos herase]
            obtain ⟨i1, i2, i3, i4⟩ :=
              ih (n + 1 - min (n + 1) (e.data.length - e.consumed)) rest
                (if rd = true then
                  buf ++ List.take (min (n + 1) (e.data.length - e.consumed))
                    (List.drop e.consumed e.data)
                 else buf)
                (tb - min (n + 1) (e.data.length - e.consumed))
                (by omega) hwfr (by omega)
            refine ⟨?_, ?_, i3, ?_⟩
            · rw [i1, sumRemaining_cons]; omega
            · rw [i2]; omega
            · intro hne
              exact i4 (fun x hx => hne x (List.mem_cons_of_mem e hx))
          · simp only [if_neg herase]
            obtain ⟨i1, i2, i3, i4⟩ :=
              ih (n + 1 - min (n + 1) (e.data.length - e.consumed))
                (⟨e.data, e.consumed + min (n + 1) (e.data.length - e.consumed)⟩ :: rest)
                (if rd = true then
                  buf ++ List.take (min (n + 1) (e.data.length - e.consumed))
                    (List.drop e.consumed e.data)
                 else buf)
                (tb - min (n + 1) (e.data.length - e.consumed))
                (by simp only [List.length_cons]; omega)
                (by
                  intro x hx
                  rcases List.mem_cons.mp hx with h | h
                  · subst h; simp; omega
                  · exact hwfr x h)
                (by omega)
            refine ⟨?_, ?_, i3, ?_⟩
            · rw [i1, sumRemaining_cons, sumRemaining_cons]
              simp only []
              omega
            · rw [i2]; omega
            · intro hne
              refine i4 ?_
              intro x hx
              rcases List.mem_cons.mp hx with h | h
              · subst h; simp; omega
              · exact hne x (List.mem_cons_of_mem e h)
end SystemUtils
namespace SystemUtils

theorem Peek_state (q : DataQueue) (n : Nat) : (q.Peek n).2 = q := by
  have h := dequeueLoopFuel_peek_state true
    (min n q.totalBytes + q.elements.length + 1) (min n q.totalBytes)
    q.elements [] q.totalBytes
  cases q with
  | mk els tb =>
    simp only [DataQueue.Peek, DataQueue.DequeueImpl] at h ⊢
    simp only [DataQueue.mk.injEq]
    exact ⟨by rw [h], by rw [h]⟩

theorem DequeueImpl_remove (q : DataQueue) (n : Nat) (rd : Bool) (hq : q.Wf) :
    (q.DequeueImpl n rd true).2.totalBytes = q.totalBytes - min n q.totalBytes
    ∧ sumRemaining (q.DequeueImpl n rd true).2.elements
        = sumRemaining q.elements - min n q.totalBytes
    ∧ (q.DequeueImpl n rd true).2.Wf
    ∧ (q.NoEmptySegments → (q.DequeueImpl n rd true).2.NoEmptySegments) := by
  obtain ⟨htb, hwf⟩ := hq
  obtain ⟨i1, i2, i3, i4⟩ := dequeueLoopFuel_remove_spec rd
    (min n q.totalBytes + q.elements.length + 1) (min n q.totalBytes)
    q.elements [] q.totalBytes (by omega) hwf (by omega)
  refine ⟨?_, ?_, ⟨?_, ?_⟩, ?_⟩
  · simpa [DataQueue.DequeueImpl] using i2
  · simpa [DataQueue.DequeueImpl] using i1
  · simp only [DataQueue.DequeueImpl]
    rw [i1, i2, htb]
  · simpa [DataQueue.DequeueImpl] using i3
  · intro hne
    simpa [DataQueue.DequeueImpl, DataQueue.NoEmptySegments] using i4 hne

theorem wf_empty : DataQueue.empty.Wf := by
  constructor <;> simp [DataQueue.empty, sumRemaining]

theorem wf_applyOp {q : DataQueue} (hq : q.Wf) (op : QueueOp) : (applyOp q op).Wf := by
  cases op with
  | enqueue d =>
    obtain ⟨htb, hwf⟩ := hq
    constructor
    · simp [applyOp, DataQueue.Enqueue, sumRemaining, Element.remaining, htb]
    · intro e he
      simp only [applyOp, DataQueue.Enqueue, List.mem_append,
        List.mem_singleton] at he
      rcases he with h | h
      · exact hwf e h
      · subst h; simp
  | dequeue n => exact (DequeueImpl_remove q n true hq).2.2.1
  | drop n => exact (DequeueImpl_remove q n false hq).2.2.1
  | peek n =>
    show ((q.Peek n).2).Wf
    rw [Peek_state]
    exact hq

theorem wf_foldl : ∀ (ops : List QueueOp) (q : DataQueue), q.Wf →
    (ops.foldl applyOp q).Wf := by
  intro ops
  induction ops with
  | nil => intro q h; simpa using h
  | cons op rest ih =>
    intro q h
    simpa using ih (applyOp q op) (wf_applyOp h op)

theorem wf_runOps (ops : List QueueOp) : (runOps ops).Wf :=
  wf_foldl ops DataQueue.empty wf_empty

theorem noEmptySegments_applyOp {q : DataQueue} (hq : q.Wf)
    (hne : q.NoEmptySegments) (op : QueueOp)
    (hop : ∀ d, op = QueueOp.enqueue d → d ≠ []) :
    (applyOp q op).NoEmptySegments := by
  cases op with
  | enqueue d =>
    intro e he
    simp only [applyOp, DataQueue.Enqueue, List.mem_append,
      List.mem_singleton] at he
    rcases he with h | h
    · exact hne e h
    · subst h
      simp only []
      have : d ≠ [] := hop d rfl
      simpa [List.length_pos] using this
  | dequeue n => exact (DequeueImpl_remove q n true hq).2.2.2 hne
  | drop n => exact (DequeueImpl_remove q n false hq).2.2.2 hne
  | peek n =>
    show ((q.Peek n).2).NoEmptySegments
    rw [Peek_state]
    exact hne

theorem noEmptySegments_foldl : ∀ (ops : List QueueOp) (q : DataQueue),
    q.Wf → q.NoEmptySegments →
    (∀ d, QueueOp.enqueue d ∈ ops → d ≠ []) →
    (ops.foldl applyOp q).NoEmptySegments := by
  intro ops
  induction ops with
  | nil => intro q _ h _; simpa using h
  | cons op rest ih =>
    intro q hwf hne hops
    simp only [List.foldl_cons]
    refine ih (applyOp q op) (wf_applyOp hwf op) ?_ ?_
    · exact noEmptySegments_applyOp hwf hne op
        (fun d hd => hops d (by rw [hd]; exact List.mem_cons_self _ _))
    · exact fun d hd => hops d (List.mem_cons_of_mem op hd)

theorem noEmptySegments_runOps (ops : List QueueOp)
    (h : ∀ d, QueueOp.enqueue d ∈ ops → d ≠ []) :
    (runOps ops).NoEmptySegments :=
  noEmptySegments_foldl ops DataQueue.empty wf_empty (by intro e he; simp [DataQueue.empty] at he) h

theorem elements_nil_of_sum_zero : ∀ (els : List Element),
    (∀ e ∈ els, e.consumed < e.data.length) → sumRemaining els = 0 → els = [] := by
  intro els hne hsum
  cases els with
  | nil => rfl
  | cons e rest =>
    rw [sumRemaining_cons] at hsum
    have := hne e (List.mem_cons_self e rest)
    omega

theorem foldl_enqueue_bytes : ∀ (datas : List (List Nat)) (q : DataQueue),
    ((datas.map QueueOp.enqueue).foldl applyOp q).totalBytes
      = q.totalBytes + (datas.map List.length).sum := by
  intro datas
  induction datas with
  | nil => intro q; simp
  | cons d rest ih =>
    intro q
    simp only [List.map_cons, List.foldl_cons, List.sum_cons]
    rw [ih]
    simp [applyOp, DataQueue.Enqueue]
    omega

end SystemUtils
namespace SystemUtils

/-- C5, counterexample: the claim fails as stated.  Enqueuing an empty buffer
is a reachable state with `GetBytesQueued() = 0`; dequeuing or dropping
`n = 0 ≥ 0` leaves the empty segment in place, so `GetBuffersQueued() = 1`,
not `0`. -/
theorem claim_C5_counterexample :
    (runOps [QueueOp.enqueue []]).GetBytesQueued ≤ 0
    ∧ ((runOps [QueueOp.enqueue []]).Dequeue 0).2.GetBuffersQueued = 1
    ∧ ((runOps [QueueOp.enqueue []]).Drop 0).GetBuffersQueued = 1 := by
  decide

/-- C5, amended: for every DataQueue state reachable without enqueuing an
empty buffer, and every `n ≥ GetBytesQueued()`, after `Dequeue(n)` or
`Drop(n)` the queue holds no segments (`GetBuffersQueued() = 0`) and no
bytes (`GetBytesQueued() = 0`). -/
theorem claim_C5_amended (ops : List QueueOp) (n : Nat)
    (hne : ∀ d, QueueOp.enqueue d ∈ ops → d ≠ [])
    (hn : (runOps ops).GetBytesQueued ≤ n) :
    (((runOps ops).Dequeue n).2.GetBuffersQueued = 0
      ∧ ((runOps ops).Dequeue n).2.GetBytesQueued = 0)
    ∧ (((runOps ops).Drop n).GetBuffersQueued = 0
      ∧ ((runOps ops).Drop n).GetBytesQueued = 0) := by
  have hwf := wf_runOps ops
  have hnes := noEmptySegments_runOps ops hne
  have htb := hwf.1
  have hmin : min n (runOps ops).totalBytes = (runOps ops).totalBytes := by
    have : (runOps ops).GetBytesQueued = (runOps ops).totalBytes := rfl
    omega
  constructor
  · obtain ⟨i1, i2, _, i4⟩ := DequeueImpl_remove (runOps ops) n true hwf
    rw [hmin] at i1 i2
    have hz : sumRemaining ((runOps ops).Dequeue n).2.elements = 0 := by
      rw [show (runOps ops).Dequeue n = (runOps ops).DequeueImpl n true true from rfl]
      omega
    have hnil := elements_nil_of_sum_zero _ (i4 hnes) hz
    constructor
    · simpa [DataQueue.GetBuffersQueued] using congrArg List.length hnil
    · show ((runOps ops).DequeueImpl n true true).2.totalBytes = 0
      omega
  · obtain ⟨i1, i2, _, i4⟩ := DequeueImpl_remove (runOps ops) n false hwf
    rw [hmin] at i1 i2
    have hz : sumRemaining ((runOps ops).Drop n).elements = 0 := by
      rw [show (runOps ops).Drop n = ((runOps ops).DequeueImpl n false true).2 from rfl]
      omega
    have hnil := elements_nil_of_sum_zero _ (i4 hnes) hz
    constructor
    · simpa [DataQueue.GetBuffersQueued] using congrArg List.length hnil
    · show ((runOps ops).DequeueImpl n false true).2.totalBytes = 0
      omega

/-- Witness for `claim_C5_amended` at a concrete input. -/
theorem claim_C5_amended_witness :
    (∀ d, QueueOp.enqueue d ∈ [QueueOp.enqueue [1, 2]] → d ≠ [])
    ∧ (runOps [QueueOp.enqueue [1, 2]]).GetBytesQueued ≤ 5
    ∧ ((((runOps [QueueOp.enqueue [1, 2]]).Dequeue 5).2.GetBuffersQueued = 0
        ∧ ((runOps [QueueOp.enqueue [1, 2]]).Dequeue 5).2.GetBytesQueued = 0)
      ∧ (((runOps [QueueOp.enqueue [1, 2]]).Drop 5).GetBuffersQueued = 0
        ∧ ((runOps [QueueOp.enqueue [1, 2]]).Drop 5).GetBytesQueued = 0)) := by
  have hne : ∀ d, QueueOp.enqueue d ∈ [QueueOp.enqueue [1, 2]] → d ≠ [] := by
    intro d hd
    rw [List.mem_singleton] at hd
    cases hd
    decide
  exact ⟨hne, by decide, claim_C5_amended [QueueOp.enqueue [1, 2]] 5 hne (by decide)⟩

/-- C6: at every observable point, `GetBytesQueued()` equals the literal sum
over stored segments of (length minus consumed); and any sequence of pure
enqueues totalling B bytes leaves `GetBytesQueued() = B`. -/
theorem claim_C6_bytes_queued_is_sum :
    ∀ ops : List QueueOp,
      (runOps ops).GetBytesQueued = sumRemaining (runOps ops).elements
    ∧ ∀ datas : List (List Nat),
        (runOps (datas.map QueueOp.enqueue)).GetBytesQueued
          = (datas.map List.length).sum := by
  intro ops
  constructor
  · exact (wf_runOps ops).1
  · intro datas
    have h := foldl_enqueue_bytes datas DataQueue.empty
    simpa [runOps, DataQueue.GetBytesQueued, DataQueue.empty] using h

/-- C7: `Peek(n)` leaves the queue state entirely unchanged, and two
consecutive `Peek(n)` calls return identical byte sequences. -/
theorem claim_C7_peek_pure :
    ∀ (q : DataQueue) (n : Nat),
      (q.Peek n).2 = q ∧ ((q.Peek n).2.Peek n).1 = (q.Peek n).1 := by
  intro q n
  exact ⟨Peek_state q n, by rw [Peek_state q n]⟩

end SystemUtils
namespace SystemUtils

/-- C1: refuted on the code.  In a graceful close whose queue has drained,
one worker iteration that observes the peer's orderly close (`recv` returns
0) invokes the broken delegate twice: once with `graceful=true` from the
read branch, then again with `graceful=false` from the closing block of the
same iteration. -/
theorem claim_C1_broken_fired_twice :
    (ProcessorIteration gracefulCloseDrainedState (RecvOutcome.ok [])
        SendOutcome.wouldBlock).2.1
      = [ConnEvent.broken true, ConnEvent.broken false] := by
  decide

/-- C2: refuted on the code.  When `send` reports would-block the worker
closes the socket, fires `broken(graceful=false)` and breaks (leaving the
peeked bytes queued but the session dead); when `send` reports a hard error
the worker does nothing at all (no close, no broken, no break). -/
theorem claim_C2_send_branches_inverted :
    ((ProcessorIteration sendPendingState RecvOutcome.wouldBlock
          SendOutcome.wouldBlock).1.socketOpen = false
      ∧ (ProcessorIteration sendPendingState RecvOutcome.wouldBlock
          SendOutcome.wouldBlock).2.1 = [ConnEvent.broken false]
      ∧ (ProcessorIteration sendPendingState RecvOutcome.wouldBlock
          SendOutcome.wouldBlock).2.2 = true)
    ∧ ((ProcessorIteration sendPendingState RecvOutcome.wouldBlock
          SendOutcome.hardError).1.socketOpen = true
      ∧ (ProcessorIteration sendPendingState RecvOutcome.wouldBlock
          SendOutcome.hardError).2.1 = []
      ∧ (ProcessorIteration sendPendingState RecvOutcome.wouldBlock
          SendOutcome.hardError).2.2 = false) := by
  decide

/-- C3: refuted on the code.  Opening in MulticastSend mode with every
system call succeeding still closes the socket, starts no worker, and
returns false, while the same environment opens a Datagram endpoint
successfully. -/
theorem claim_C3_multicast_send_open_always_fails :
    EndPointOpen EndPointMode.multicastSend 1234 allCallsSucceedEnv
      = (false, closedEndPoint 1234)
    ∧ (EndPointOpen EndPointMode.datagram 1234 allCallsSucceedEnv).1 = true := by
  decide

/-- C4, counterexample: after `Close(clean=false)` on a connection with
three unsent bytes queued, the outbound queue still reports those three
bytes — nothing is discarded. -/
theorem claim_C4_counterexample :
    (NetworkConnectionClose queuedBytesState false).1.outputQueue.GetBytesQueued
      = 3 := by
  decide

/-- C4, amended: `Close(clean=false)` immediately closes the socket but
leaves the outbound queue exactly as it was; bytes passed to `SendMessage`
but not yet transmitted stay queued (and remain available to a later session
of the recycled object). -/
theorem claim_C4_amended (st : ConnState) :
    (NetworkConnectionClose st false).1.socketOpen = false
    ∧ (NetworkConnectionClose st false).1.outputQueue = st.outputQueue := by
  simp only [NetworkConnectionClose, ImplClose]
  split_ifs <;> simp_all

/-- C10: calling `Close(clean=false)` when no broken delegate is installed
(`Process` never ran) closes the socket and invokes no callback: the public
`Close` fires the delegate only when `Impl::Close` returns true, which
requires a non-null broken delegate. -/
theorem claim_C10_null_broken_delegate (st : ConnState)
    (h : st.brokenInstalled = false) :
    (NetworkConnectionClose st false).2 = []
    ∧ (NetworkConnectionClose st false).1.socketOpen = false := by
  simp only [NetworkConnectionClose, ImplClose]
  split_ifs <;> simp_all

/-- Witness for `claim_C10_null_broken_delegate` on a connection that was
connected but never given to `Process`. -/
theorem claim_C10_witness :
    neverProcessedState.brokenInstalled = false
    ∧ ((NetworkConnectionClose neverProcessedState false).2 = []
      ∧ (NetworkConnectionClose neverProcessedState false).1.socketOpen = false) :=
  ⟨rfl, claim_C10_null_broken_delegate neverProcessedState rfl⟩

/-- C9: in Datagram / MulticastReceive mode, a zero-length datagram
(`recvfrom` returns 0) invokes no delegate, changes nothing and does not
close; the packet-received delegate fires exactly for receives of at least
one byte; would-block and hard errors fire no delegate; and only a hard
error can take the socket from open to closed. -/
theorem claim_C9_zero_length_datagram (st : EndPointState) (a p : Nat)
    (d : List Nat) (r : RecvFromOutcome) :
    EndPointRecvPhase st (RecvFromOutcome.ok a p []) = (st, [], false)
    ∧ ((EndPointRecvPhase st (RecvFromOutcome.ok a p d)).2.1
        = [EndPointEvent.packetReceived a p d] ↔ d ≠ [])
    ∧ (EndPointRecvPhase st RecvFromOutcome.wouldBlock).2.1 = []
    ∧ (EndPointRecvPhase st RecvFromOutcome.hardError).2.1 = []
    ∧ ((EndPointRecvPhase st r).1.socketOpen = false → st.socketOpen = true →
        r = RecvFromOutcome.hardError) := by
  refine ⟨by simp [EndPointRecvPhase], ?_, rfl, rfl, ?_⟩
  · cases d <;> simp [EndPointRecvPhase]
  · intro hclosed hopen
    cases r with
    | wouldBlock => simp [EndPointRecvPhase] at hclosed; simp_all
    | hardError => rfl
    | ok a2 p2 d2 =>
      simp only [EndPointRecvPhase] at hclosed
      split at hclosed <;> simp_all

/-- Witness for `claim_C9_zero_length_datagram` on an open Datagram
endpoint observing a hard `recvfrom` error. -/
theorem claim_C9_witness :
    (EndPointRecvPhase openDatagramState RecvFromOutcome.hardError).1.socketOpen
        = false
    ∧ openDatagramState.socketOpen = true
    ∧ RecvFromOutcome.hardError = RecvFromOutcome.hardError :=
  ⟨by decide, rfl,
    (claim_C9_zero_length_datagram openDatagramState 1 2 [9]
      RecvFromOutcome.hardError).2.2.2.2 (by decide) rfl⟩

/-- C8: message routing and line format of the stream reporter: level ≥ 10
goes to the error sink with the `error: ` prefix, 5 ≤ level < 10 to the
error sink with the `warning: ` prefix, and level < 5 to the output sink
with no prefix; each line is bracketed elapsed time, sender name, colon,
level, then prefix and message, newline-terminated. -/
theorem claim_C8_stream_reporter (elapsed senderName message : String)
    (level : Nat) :
    (10 ≤ level →
      DiagnosticsStreamReporter elapsed senderName level message
        = (Sink.errorSink,
           "[" ++ elapsed ++ " " ++ senderName ++ ":" ++ toString level ++ "] "
             ++ "error: " ++ message ++ "\n"))
    ∧ (5 ≤ level → level < 10 →
      DiagnosticsStreamReporter elapsed senderName level message
        = (Sink.errorSink,
           "[" ++ elapsed ++ " " ++ senderName ++ ":" ++ toString level ++ "] "
             ++ "warning: " ++ message ++ "\n"))
    ∧ (level < 5 →
      DiagnosticsStreamReporter elapsed senderName level message
        = (Sink.outputSink,
           "[" ++ elapsed ++ " " ++ senderName ++ ":" ++ toString level ++ "] "
             ++ message ++ "\n")) := by
  refine ⟨?_, ?_, ?_⟩
  · intro h
    simp [DiagnosticsStreamReporter, if_pos h]
  · intro h1 h2
    have : ¬(10 ≤ level) := by omega
    simp [DiagnosticsStreamReporter, if_neg this, if_pos h1]
  · intro h
    have h1 : ¬(10 ≤ level) := by omega
    have h2 : ¬(5 ≤ level) := by omega
    simp [DiagnosticsStreamReporter, if_neg h1, if_neg h2]

/-- Witness for `claim_C8_stream_reporter` at levels 10, 7 and 3. -/
theorem claim_C8_witness :
    ((10 : Nat) ≤ 10
      ∧ DiagnosticsStreamReporter "0.000001" "NetworkConnection" 10 "m"
        = (Sink.errorSink, "[0.000001 NetworkConnection:10] error: m\n"))
    ∧ ((5 : Nat) ≤ 7 ∧ (7 : Nat) < 10
      ∧ DiagnosticsStreamReporter "0.000001" "NetworkConnection" 7 "m"
        = (Sink.errorSink, "[0.000001 NetworkConnection:7] warning: m\n"))
    ∧ ((3 : Nat) < 5
      ∧ DiagnosticsStreamReporter "0.000001" "NetworkConnection" 3 "m"
        = (Sink.outputSink, "[0.000001 NetworkConnection:3] m\n")) := by
  refine ⟨⟨by decide, ?_⟩, ⟨by decide, by decide, ?_⟩, ⟨by decide, ?_⟩⟩
  · have h := (claim_C8_stream_reporter "0.000001" "NetworkConnection" "m" 10).1
      (by decide)
    simpa using h
  · have h := (claim_C8_stream_reporter "0.000001" "NetworkConnection" "m" 7).2.1
      (by decide) (by decide)
    simpa using h
  · have h := (claim_C8_stream_reporter "0.000001" "NetworkConnection" "m" 3).2.2
      (by decide)
    simpa using h

end SystemUtils
